import Mathlib

/-!
Verification development for the WebTime browser extension
(`src/background.js`, `src/popup.js`).

The JavaScript source is shallowly embedded: JS objects used as
string-keyed maps become association lists, timestamps and millisecond
durations become `Int` (JS numbers are exact on these magnitudes), the
`chrome.storage.local` documents become explicit records threaded through
the handlers, and `try`/`catch` around a fallible write becomes an
`Except`-shaped run function.
-/

set_option autoImplicit false

/-! ## Model of the platform URL constructor

`new URL(s)` is host-platform code (WHATWG URL parsing), not part of the
repository, so it is modelled here restricted to the two fields the
extension reads: `protocol` and `hostname`.  The model covers scheme
validation and lowercasing, authority parsing after `//` with userinfo
and port stripping, host lowercasing, the empty-host rejection for
special schemes other than `file`, and opaque-path URLs for non-special
schemes.  IPv6 bracket hosts and percent-decoding inside hosts are
outside the model's scope (no claim touches them). -/

structure URLRec where
  protocol : String
  hostname : String
deriving DecidableEq

def isSchemeChar (c : Char) : Bool :=
  c.isAlphanum || c = '+' || c = '-' || c = '.'

/-- Splits `scheme ":" rest`; the accumulator holds the scheme chars seen
so far, reversed. Fails if no colon is reached or a non-scheme char occurs. -/
def schemeSplit : List Char → List Char → Option (List Char × List Char)
  | _, [] => none
  | acc, c :: rest =>
    if c = ':' then some (acc.reverse, rest)
    else if isSchemeChar c then schemeSplit (c :: acc) rest
    else none

def isAuthorityEnd (c : Char) : Bool :=
  c = '/' || c = '?' || c = '#'

/-- Host portion of an authority: drop userinfo (everything up to the last
`@`), then stop at the port separator `:`. -/
def hostOfAuthority (auth : List Char) : List Char :=
  let afterUser :=
    if auth.contains '@' then (auth.reverse.takeWhile (fun c => c ≠ '@')).reverse
    else auth
  afterUser.takeWhile (fun c => c ≠ ':')

def specialSchemes : List String := ["http", "https", "ws", "wss", "ftp", "file"]

def hostFromTail (tail : List Char) : String :=
  let auth := tail.takeWhile (fun c => !isAuthorityEnd c)
  String.mk ((hostOfAuthority auth).map Char.toLower)

def parseURL (url : String) : Option URLRec :=
  match url.toList with
  | [] => none
  | c :: rest =>
    if c.isAlpha then
      match schemeSplit [c] rest with
      | none => none
      | some (schemeCs, afterColon) =>
        let scheme := String.mk (schemeCs.map Char.toLower)
        let special := specialSchemes.contains scheme
        match afterColon with
        | '/' :: '/' :: tail =>
          let host := hostFromTail tail
          if special && !(scheme = "file") && host = "" then none
          else some { protocol := scheme ++ ":", hostname := host }
        | tail =>
          if special then
            -- WHATWG parses an authority for special schemes even without
            -- the literal "//" (simplified relative/authority states)
            let host := hostFromTail (tail.dropWhile (fun c => c = '/'))
            if !(scheme = "file") && host = "" then none
            else some { protocol := scheme ++ ":", hostname := host }
          else
            some { protocol := scheme ++ ":", hostname := "" }
    else none

/-! ## Domain classifier (src/background.js:54-80) -/

def isPrefixL : List Char → List Char → Bool
  | [], _ => true
  | _ :: _, [] => false
  | p :: ps, c :: cs => p = c && isPrefixL ps cs

/-- `String.startsWith`, computed on character lists so the kernel can
evaluate it (these ASCII strings have no UTF-16 subtleties). -/
def strStarts (s pre : String) : Bool := isPrefixL pre.toList s.toList

/-- `String.endsWith`, computed on character lists. -/
def strEnds (s suf : String) : Bool := isPrefixL suf.toList.reverse s.toList.reverse

/-- JS `String.prototype.replace` with a plain-string pattern: replaces the
first occurrence of `pat` only (the source calls it with replacement `""`,
but the replacement is kept general). -/
def jsReplaceFirst (pat repl : List Char) : List Char → List Char
  | [] => if isPrefixL pat [] then repl else []
  | c :: rest =>
    if isPrefixL pat (c :: rest) then repl ++ (c :: rest).drop pat.length
    else c :: jsReplaceFirst pat repl rest

/-- Embeds `getDomain` (src/background.js:54-65): parse the URL, reject
protocols not starting with "http", and apply `.replace('www.', '')` to the
hostname.  A parse failure is the `catch` branch returning `null`. -/
def getDomain (url : String) : Option String :=
  match parseURL url with
  | none => none
  | some u =>
    if strStarts u.protocol "http" then
      some (String.mk (jsReplaceFirst "www.".toList [] u.hostname.toList))
    else none

def BLOCKED_DOMAINS : List String := ["localhost", "127.0.0.1", "chrome.google.com"]

/-- Embeds `shouldTrackDomain` (src/background.js:75-80).  The argument is
an `Option` because callers pass `getDomain`'s result, which may be `null`;
the JS guard `if (!domain)` is falsy for both `null` and `""`. -/
def shouldTrackDomain (domain : Option String) : Bool :=
  match domain with
  | none => false
  | some d =>
    if d = "" then false
    else if BLOCKED_DOMAINS.contains d then false
    else if strEnds d ".local" then false
    else true

/-! ## Favicon URL construction (src/background.js:92-95)

`encodeURIComponent` is platform code; it is modelled by the ECMAScript
algorithm: unreserved characters pass through, every other character is
percent-encoded from its UTF-8 bytes. -/

def hexUpper (n : Nat) : Char :=
  if n < 10 then Char.ofNat (48 + n) else Char.ofNat (55 + n)

def utf8ByteList (c : Char) : List Nat :=
  let n := c.toNat
  if n < 128 then [n]
  else if n < 2048 then [192 + n / 64, 128 + n % 64]
  else if n < 65536 then [224 + n / 4096, 128 + (n / 64) % 64, 128 + n % 64]
  else [240 + n / 262144, 128 + (n / 4096) % 64, 128 + (n / 64) % 64, 128 + n % 64]

def uriUnreserved (c : Char) : Bool :=
  c.isAlphanum || c = '-' || c = '_' || c = '.' || c = '!' || c = '~' ||
    c = '*' || c.toNat = 39 || c = '(' || c = ')'

def encodeURIComponent (s : String) : String :=
  String.mk ((s.toList.map (fun c =>
    if uriUnreserved c then [c]
    else (utf8ByteList c).map (fun b => ['%', hexUpper (b / 16), hexUpper (b % 16)])
      |>.flatten)).flatten)

/-- Embeds `getFaviconUrl` (src/background.js:92-95). -/
def getFaviconUrl (domain : String) : String :=
  "https://www.google.com/s2/favicons?domain=" ++ encodeURIComponent domain ++ "&sz=32"

/-! ## Association-list maps

JS objects used as maps become association lists.  `lookupA` is property
lookup (first matching key), `ensureA` is the source's
initialize-if-absent pattern (`if (!m[k]) m[k] = d`), `modifyA` is an
in-place mutation of an existing property, and `updA` is the composite
initialize-then-mutate sequence the source uses for every accumulator. -/

def lookupA {K V : Type} [DecidableEq K] : List (K × V) → K → Option V
  | [], _ => none
  | (k, v) :: rest, key => if k = key then some v else lookupA rest key

def getAD {K V : Type} [DecidableEq K] (m : List (K × V)) (k : K) (d : V) : V :=
  (lookupA m k).getD d

def ensureA {K V : Type} [DecidableEq K] (m : List (K × V)) (k : K) (d : V) :
    List (K × V) :=
  if (lookupA m k).isNone then m ++ [(k, d)] else m

def modifyA {K V : Type} [DecidableEq K] : List (K × V) → K → (V → V) → List (K × V)
  | [], _, _ => []
  | (k, v) :: rest, key, f =>
    if k = key then (k, f v) :: rest else (k, v) :: modifyA rest key f

def updA {K V : Type} [DecidableEq K] (m : List (K × V)) (k : K) (d : V) (f : V → V) :
    List (K × V) :=
  modifyA (ensureA m k d) k f

/-- Sum of an `Int`-valued projection over all stored entries. -/
def sumByA {K V : Type} (g : V → Int) (m : List (K × V)) : Int :=
  (m.map (fun p => g p.2)).sum

/-- Projection of the value stored at `k`, zero when absent (matches the
JS pattern of reading a possibly-missing property of a zero-initialized
accumulator). -/
def projA {K V : Type} [DecidableEq K] (g : V → Int) (m : List (K × V)) (k : K) : Int :=
  match lookupA m k with
  | some v => g v
  | none => 0

/-! ## Stored data model (the `webtime_data` and `webtime_tracking`
documents, src/background.js:27-51) -/

structure Site where
  totalTime : Int
  visits : Int
  favicon : String
  firstVisit : Int
deriving DecidableEq

structure DayEntry where
  time : Int
  visits : Int
deriving DecidableEq

structure Data where
  sites : List (String × Site)
  dailyStats : List (String × List (String × DayEntry))
  hourlyStats : List (String × List (Nat × Int))
  lastUpdated : Int
deriving DecidableEq

structure Tracking where
  activeTabUrl : Option String
  lastHeartbeat : Option Int
  isIdle : Bool
deriving DecidableEq

/-- One wall-clock instant as the handlers observe it: the epoch
milliseconds of `Date.now()` together with the local-calendar date key
(`getTodayKey`) and hour (`getHours`) of the same instant. -/
structure Env where
  now : Int
  todayKey : String
  hour : Nat
deriving DecidableEq

/-- The `webtime_data` document created by `initializeStorage`
(src/background.js:31-40), also the value `clearData` writes. -/
def initialData (now : Int) : Data :=
  { sites := [], dailyStats := [], hourlyStats := [], lastUpdated := now }

/-- The `webtime_tracking` document created by `initializeStorage`
(src/background.js:42-50). -/
def initialTracking : Tracking :=
  { activeTabUrl := none, lastHeartbeat := none, isIdle := false }

/-! ## Aggregate store write path (src/background.js:147-244) -/

/-- First-observation record for a domain (src/background.js:156-163). -/
def defaultSite (env : Env) (domain : String) : Site :=
  { totalTime := 0, visits := 0, favicon := getFaviconUrl domain, firstVisit := env.now }

def defaultDayEntry : DayEntry := { time := 0, visits := 0 }

/-- Embeds `recordTime` (src/background.js:147-201).  Each accumulator is
the source's initialize-if-absent (`if (!...) ... = {time: 0, ...}`)
followed by `+= timeMs`, which is exactly `updA` with the zero default;
the whole updated document is stored in a single `chrome.storage.local.set`. -/
def recordTime (env : Env) (domain : String) (timeMs : Int) (d : Data) : Data :=
  { sites := updA d.sites domain (defaultSite env domain)
      (fun s => { s with totalTime := s.totalTime + timeMs }),
    dailyStats := updA d.dailyStats env.todayKey []
      (fun m => updA m domain defaultDayEntry (fun e => { e with time := e.time + timeMs })),
    hourlyStats := updA d.hourlyStats env.todayKey []
      (fun m => updA m env.hour 0 (fun x => x + timeMs)),
    lastUpdated := env.now }

/-- The body of `recordVisit` after its guard (src/background.js:207-240). -/
def recordVisitCore (env : Env) (domain : String) (d : Data) : Data :=
  { d with
    sites := updA d.sites domain (defaultSite env domain)
      (fun s => { s with visits := s.visits + 1 }),
    dailyStats := updA d.dailyStats env.todayKey []
      (fun m => updA m domain defaultDayEntry (fun e => { e with visits := e.visits + 1 })),
    lastUpdated := env.now }

/-- Embeds `recordVisit` (src/background.js:204-244).  Callers pass
`getDomain(url)`, which may be `null`, so the argument is an `Option`;
the `shouldTrackDomain` guard returns early for untrackable domains. -/
def recordVisit (env : Env) (domain : Option String) (d : Data) : Data :=
  if shouldTrackDomain domain then
    match domain with
    | some dom => recordVisitCore env dom d
    | none => d
  else d

def MAX_VALID_GAP_MS : Int := 45 * 1000

/-- Embeds `handleHeartbeat` (src/background.js:98-144) on its
storage-success path.  JS truthiness: `!tracking.activeTabUrl` is true
for both `null` and `""`, and `if (tracking.lastHeartbeat)` is false for
both `null` and `0`. -/
def handleHeartbeat (env : Env) (tr : Tracking) (d : Data) : Tracking × Data :=
  let now := env.now
  if tr.isIdle then ({ tr with lastHeartbeat := some now }, d)
  else
    match tr.activeTabUrl with
    | none => ({ tr with lastHeartbeat := some now }, d)
    | some url =>
      if url = "" then ({ tr with lastHeartbeat := some now }, d)
      else
        let domain := getDomain url
        if shouldTrackDomain domain then
          let d' :=
            match tr.lastHeartbeat with
            | none => d
            | some last =>
              if last = 0 then d
              else
                let gap := now - last
                if gap ≤ MAX_VALID_GAP_MS ∧ 1000 ≤ gap then
                  match domain with
                  | some dom => recordTime env dom gap d
                  | none => d
                else d
          ({ tr with lastHeartbeat := some now }, d')
        else ({ tr with lastHeartbeat := some now }, d)

/-- Embeds `setIdleState` (src/background.js:258-269): store the idle
flag; on becoming active (`!idle`) also reset the heartbeat timestamp. -/
def setIdleState (idle : Bool) (now : Int) (tr : Tracking) : Tracking :=
  let tr1 := { tr with isIdle := idle }
  if !idle then { tr1 with lastHeartbeat := some now } else tr1

/-- Embeds `setActiveTab` (src/background.js:247-255). -/
def setActiveTab (url : String) (now : Int) (tr : Tracking) : Tracking :=
  { tr with activeTabUrl := some url, lastHeartbeat := some now }

/-! ## Storage documents together, and the popup operations -/

/-- The two persisted `chrome.storage.local` documents. -/
structure Store where
  webtime_data : Data
  webtime_tracking : Tracking
deriving DecidableEq

/-- Embeds the confirmed branch of `clearData` (src/popup.js:340-356): a
single `set` of the `webtime_data` key with the empty record; the
`webtime_tracking` key is not written. -/
def clearData (now : Int) (st : Store) : Store :=
  { st with webtime_data :=
      { sites := [], dailyStats := [], hourlyStats := [], lastUpdated := now } }

/-- Embeds `sanitizeUrl` (src/popup.js:300-312).  `if (!url)` is the JS
falsy test (empty string); `new URL` failure is the `catch` returning `''`. -/
def sanitizeUrl (url : String) : String :=
  if url = "" then ""
  else
    match parseURL url with
    | some parsed => if parsed.protocol = "https:" then url else ""
    | none => ""

/-- Follows the spec side of claim C10: what it means for a string to
parse as a URL whose protocol is exactly `https:`. -/
def isHttpsUrl (u : String) : Bool :=
  match parseURL u with
  | some r => r.protocol = "https:"
  | none => false

/-- The favicon cell of one row of `displaySiteList` (src/popup.js:276-289):
an `<img src=...>` is emitted only when the sanitized favicon is nonempty,
otherwise the placeholder glyph is shown. -/
def insertedFaviconSrc (favicon : String) : Option String :=
  let safe := sanitizeUrl favicon
  if safe = "" then none else some safe

/-! ## Observables of the stored data -/

def siteTotal (d : Data) (dom : String) : Int := projA Site.totalTime d.sites dom

def siteVisits (d : Data) (dom : String) : Int := projA Site.visits d.sites dom

def dayTime (d : Data) (k dom : String) : Int :=
  projA DayEntry.time (getAD d.dailyStats k []) dom

def hourTime (d : Data) (k : String) (h : Nat) : Int :=
  projA id (getAD d.hourlyStats k []) h

/-- Sum of the domain's `DailyBucket.time` over all stored dates. -/
def domainDailyTotal (d : Data) (dom : String) : Int :=
  sumByA (fun m => projA DayEntry.time m dom) d.dailyStats

/-- Sum of `DailyBucket.time` over all domains stored for one date. -/
def dayTotal (d : Data) (k : String) : Int :=
  sumByA DayEntry.time (getAD d.dailyStats k [])

/-- Sum of `HourlyBucket.time` over all hours stored for one date. -/
def hourTotalOfDay (d : Data) (k : String) : Int :=
  sumByA id (getAD d.hourlyStats k [])

/-- The cross-accumulator invariant of spec section 3. -/
def AggInvariant (d : Data) : Prop :=
  (∀ dom, siteTotal d dom = domainDailyTotal d dom) ∧
  (∀ k, dayTotal d k = hourTotalOfDay d k)

/-! ## Write operations and reachable states -/

inductive WOp where
  | time (env : Env) (domain : String) (timeMs : Int)
  | visit (env : Env) (domain : Option String)
  | clear (now : Int)

def applyOp (d : Data) : WOp → Data
  | .time env dom t => recordTime env dom t d
  | .visit env dom => recordVisit env dom d
  | .clear now => initialData now

def runOps (d : Data) (ops : List WOp) : Data := ops.foldl applyOp d

/-! ## Failure model for the durable write (src/background.js:151-200,
209-243): the whole handler body is inside `try { ... await set(...) }
catch (e) { console.error(e) }`, so a rejected `set` leaves the stored
document untouched and the handler still returns normally. -/

def trySetData (setOk : Bool) (newD stored : Data) : Data :=
  match (if setOk then Except.ok newD else Except.error "storage write failed" :
      Except String Data) with
  | .ok updated => updated
  | .error _ => stored

def recordTimeRun (setOk : Bool) (env : Env) (domain : String) (timeMs : Int)
    (stored : Data) : Data :=
  trySetData setOk (recordTime env domain timeMs stored) stored

def recordVisitRun (setOk : Bool) (env : Env) (domain : Option String)
    (stored : Data) : Data :=
  if shouldTrackDomain domain then
    match domain with
    | some dom => trySetData setOk (recordVisitCore env dom stored) stored
    | none => stored
  else stored

/-! ## Lost-update interleaving (spec section 5)

Two `recordVisit` handlers for the same domain, interleaved at their
storage await points in the order read_A, read_B, write_A, write_B: each
handler computes its write from the snapshot it read, and the storage
holds the last write. -/

def interleavedVisits (env : Env) (dom : Option String) (d0 : Data) : Data :=
  let readA := d0
  let readB := d0
  let _writeA := recordVisit env dom readA
  let writeB := recordVisit env dom readB
  writeB

/-! ## Association-list lemmas -/

theorem lookupA_nil {K V : Type} [DecidableEq K] (k : K) :
    lookupA ([] : List (K × V)) k = none := rfl

theorem lookupA_cons {K V : Type} [DecidableEq K] (k' : K) (v : V) (m : List (K × V)) (k : K) :
    lookupA ((k', v) :: m) k = if k' = k then some v else lookupA m k := rfl

theorem lookupA_append_of_none {K V : Type} [DecidableEq K] (m m' : List (K × V)) (k : K)
    (h : lookupA m k = none) : lookupA (m ++ m') k = lookupA m' k := by
  induction m with
  | nil => simp
  | cons p rest ih =>
    obtain ⟨k', v⟩ := p
    rw [lookupA_cons] at h
    by_cases hk : k' = k
    · simp [hk] at h
    · rw [if_neg hk] at h
      simpa [lookupA_cons, hk] using ih h

theorem sumByA_nil {K V : Type} (g : V → Int) : sumByA g ([] : List (K × V)) = 0 := rfl

theorem sumByA_cons {K V : Type} (g : V → Int) (p : K × V) (m : List (K × V)) :
    sumByA g (p :: m) = g p.2 + sumByA g m := by
  simp [sumByA]

theorem sumByA_append {K V : Type} (g : V → Int) (m m' : List (K × V)) :
    sumByA g (m ++ m') = sumByA g m + sumByA g m' := by
  simp [sumByA]

theorem lookupA_ensureA_self {K V : Type} [DecidableEq K] (m : List (K × V)) (k : K) (d : V) :
    lookupA (ensureA m k d) k = some ((lookupA m k).getD d) := by
  unfold ensureA
  cases h : lookupA m k with
  | none => simp [h, lookupA_append_of_none _ _ _ h, lookupA_cons]
  | some v => simp [h]

theorem lookupA_append_single_ne {K V : Type} [DecidableEq K] (m : List (K × V)) (k k' : K)
    (d : V) (h : k' ≠ k) : lookupA (m ++ [(k, d)]) k' = lookupA m k' := by
  induction m with
  | nil => simp [lookupA_cons, lookupA_nil, Ne.symm h]
  | cons p rest ih =>
    obtain ⟨k0, v0⟩ := p
    by_cases hk0 : k0 = k' <;> simp [lookupA_cons, hk0, ih]

theorem lookupA_ensureA_ne {K V : Type} [DecidableEq K] (m : List (K × V)) (k k' : K) (d : V)
    (h : k' ≠ k) : lookupA (ensureA m k d) k' = lookupA m k' := by
  unfold ensureA
  cases hm : lookupA m k with
  | none => simp [hm, lookupA_append_single_ne m k k' d h]
  | some v => simp [hm]

theorem lookupA_modifyA_self {K V : Type} [DecidableEq K] (m : List (K × V)) (k : K) (f : V → V) :
    lookupA (modifyA m k f) k = (lookupA m k).map f := by
  induction m with
  | nil => rfl
  | cons p rest ih =>
    obtain ⟨k', v⟩ := p
    by_cases hk : k' = k <;> simp [modifyA, lookupA_cons, hk, ih]

theorem lookupA_modifyA_ne {K V : Type} [DecidableEq K] (m : List (K × V)) (k k' : K) (f : V → V)
    (h : k' ≠ k) : lookupA (modifyA m k f) k' = lookupA m k' := by
  induction m with
  | nil => rfl
  | cons p rest ih =>
    obtain ⟨k0, v⟩ := p
    by_cases hk0 : k0 = k
    · subst hk0
      simp [modifyA, lookupA_cons, Ne.symm h]
    · simp [modifyA, hk0, lookupA_cons, ih]

theorem sumByA_ensureA {K V : Type} [DecidableEq K] (g : V → Int) (m : List (K × V)) (k : K)
    (d : V) :
    sumByA g (ensureA m k d) =
      sumByA g m + (match lookupA m k with | none => g d | some _ => 0) := by
  unfold ensureA
  cases h : lookupA m k <;> simp [h, sumByA_append, sumByA_cons, sumByA_nil]

theorem sumByA_modifyA {K V : Type} [DecidableEq K] (g : V → Int) (m : List (K × V)) (k : K)
    (f : V → V) :
    sumByA g (modifyA m k f) =
      sumByA g m + (match lookupA m k with | some v => g (f v) - g v | none => 0) := by
  induction m with
  | nil => simp [modifyA, sumByA_nil, lookupA_nil]
  | cons p rest ih =>
    obtain ⟨k', v⟩ := p
    by_cases hk : k' = k
    · simp only [modifyA, if_pos hk, sumByA_cons, lookupA_cons]
      ring
    · simp only [modifyA, if_neg hk, sumByA_cons, lookupA_cons]
      rw [ih]
      ring

theorem lookupA_updA_self {K V : Type} [DecidableEq K] (m : List (K × V)) (k : K) (d : V)
    (f : V → V) : lookupA (updA m k d f) k = some (f ((lookupA m k).getD d)) := by
  unfold updA
  rw [lookupA_modifyA_self, lookupA_ensureA_self]
  rfl

theorem lookupA_updA_ne {K V : Type} [DecidableEq K] (m : List (K × V)) (k k' : K) (d : V)
    (f : V → V) (h : k' ≠ k) : lookupA (updA m k d f) k' = lookupA m k' := by
  unfold updA
  rw [lookupA_modifyA_ne _ _ _ _ h, lookupA_ensureA_ne _ _ _ _ h]

theorem projA_updA_self {K V : Type} [DecidableEq K] (g : V → Int) (m : List (K × V)) (k : K)
    (d : V) (f : V → V) : projA g (updA m k d f) k = g (f ((lookupA m k).getD d)) := by
  simp [projA, lookupA_updA_self]

theorem projA_updA_ne {K V : Type} [DecidableEq K] (g : V → Int) (m : List (K × V)) (k k' : K)
    (d : V) (f : V → V) (h : k' ≠ k) : projA g (updA m k d f) k' = projA g m k' := by
  simp [projA, lookupA_updA_ne _ _ _ _ _ h]

theorem getAD_updA_self {K V : Type} [DecidableEq K] (m : List (K × V)) (k : K) (d d' : V)
    (f : V → V) : getAD (updA m k d f) k d' = f ((lookupA m k).getD d) := by
  simp [getAD, lookupA_updA_self]

theorem getAD_updA_ne {K V : Type} [DecidableEq K] (m : List (K × V)) (k k' : K) (d d' : V)
    (f : V → V) (h : k' ≠ k) : getAD (updA m k d f) k' d' = getAD m k' d' := by
  simp [getAD, lookupA_updA_ne _ _ _ _ _ h]

theorem sumByA_updA {K V : Type} [DecidableEq K] (g : V → Int) (m : List (K × V)) (k : K)
    (d : V) (f : V → V) :
    sumByA g (updA m k d f) =
      sumByA g m + g (f ((lookupA m k).getD d)) - projA g m k := by
  unfold updA
  rw [sumByA_modifyA, lookupA_ensureA_self, sumByA_ensureA]
  cases h : lookupA m k <;> (simp [projA, h]; try ring)

/-- The net effect of an initialize-then-increment on the projection at
the touched key, given that the default is `g`-zero. -/
theorem projA_updA_incr {K V : Type} [DecidableEq K] (g : V → Int) (m : List (K × V)) (k : K)
    (d : V) (f : V → V) (t : Int) (hd : g d = 0) (hf : ∀ v, g (f v) = g v + t) :
    projA g (updA m k d f) k = projA g m k + t := by
  rw [projA_updA_self, hf]
  cases h : lookupA m k <;> simp [projA, h, hd]

/-- An update that leaves the projection of every value unchanged leaves
the projection at the touched key unchanged. -/
theorem projA_updA_pres {K V : Type} [DecidableEq K] (g : V → Int) (m : List (K × V)) (k : K)
    (d : V) (f : V → V) (hd : g d = 0) (hf : ∀ v, g (f v) = g v) :
    projA g (updA m k d f) k = projA g m k := by
  rw [projA_updA_self, hf]
  cases h : lookupA m k <;> simp [projA, h, hd]

/-- The net effect of an initialize-then-increment on the whole sum. -/
theorem sumByA_updA_incr {K V : Type} [DecidableEq K] (g : V → Int) (m : List (K × V)) (k : K)
    (d : V) (f : V → V) (t : Int) (hd : g d = 0) (hf : ∀ v, g (f v) = g v + t) :
    sumByA g (updA m k d f) = sumByA g m + t := by
  rw [sumByA_updA, hf]
  cases h : lookupA m k <;> (simp [projA, h, hd]; try ring)

theorem sumByA_updA_pres {K V : Type} [DecidableEq K] (g : V → Int) (m : List (K × V)) (k : K)
    (d : V) (f : V → V) (hd : g d = 0) (hf : ∀ v, g (f v) = g v) :
    sumByA g (updA m k d f) = sumByA g m := by
  rw [sumByA_updA, hf]
  cases h : lookupA m k <;> simp [projA, h, hd]

/-! ## Effect of `recordTime` on the observables -/

theorem siteTotal_recordTime_self (env : Env) (dom : String) (t : Int) (d : Data) :
    siteTotal (recordTime env dom t d) dom = siteTotal d dom + t := by
  unfold siteTotal recordTime
  exact projA_updA_incr _ d.sites dom (defaultSite env dom) _ t rfl (fun v => rfl)

theorem siteTotal_recordTime_ne (env : Env) (dom dom' : String) (t : Int) (d : Data)
    (h : dom' ≠ dom) : siteTotal (recordTime env dom t d) dom' = siteTotal d dom' := by
  unfold siteTotal recordTime
  exact projA_updA_ne _ d.sites dom dom' (defaultSite env dom) _ h

theorem dayTime_recordTime_self (env : Env) (dom : String) (t : Int) (d : Data) :
    dayTime (recordTime env dom t d) env.todayKey dom = dayTime d env.todayKey dom + t := by
  unfold dayTime recordTime
  rw [show (Data.mk
      (updA d.sites dom (defaultSite env dom) (fun s => { s with totalTime := s.totalTime + t }))
      (updA d.dailyStats env.todayKey []
        (fun m => updA m dom defaultDayEntry (fun e => { e with time := e.time + t })))
      (updA d.hourlyStats env.todayKey [] (fun m => updA m env.hour 0 (fun x => x + t)))
      env.now).dailyStats =
    updA d.dailyStats env.todayKey []
      (fun m => updA m dom defaultDayEntry (fun e => { e with time := e.time + t })) from rfl]
  rw [getAD_updA_self]
  exact projA_updA_incr _ _ dom defaultDayEntry _ t rfl (fun v => rfl)

theorem hourTime_recordTime_self (env : Env) (dom : String) (t : Int) (d : Data) :
    hourTime (recordTime env dom t d) env.todayKey env.hour
      = hourTime d env.todayKey env.hour + t := by
  unfold hourTime recordTime
  rw [show (Data.mk
      (updA d.sites dom (defaultSite env dom) (fun s => { s with totalTime := s.totalTime + t }))
      (updA d.dailyStats env.todayKey []
        (fun m => updA m dom defaultDayEntry (fun e => { e with time := e.time + t })))
      (updA d.hourlyStats env.todayKey [] (fun m => updA m env.hour 0 (fun x => x + t)))
      env.now).hourlyStats =
    updA d.hourlyStats env.todayKey [] (fun m => updA m env.hour 0 (fun x => x + t)) from rfl]
  rw [getAD_updA_self]
  exact projA_updA_incr _ _ env.hour 0 _ t rfl (fun v => rfl)

theorem domainDailyTotal_recordTime_self (env : Env) (dom : String) (t : Int) (d : Data) :
    domainDailyTotal (recordTime env dom t d) dom = domainDailyTotal d dom + t := by
  unfold domainDailyTotal recordTime
  exact sumByA_updA_incr _ d.dailyStats env.todayKey [] _ t rfl
    (fun m => projA_updA_incr _ m dom defaultDayEntry _ t rfl (fun v => rfl))

theorem domainDailyTotal_recordTime_ne (env : Env) (dom dom' : String) (t : Int) (d : Data)
    (h : dom' ≠ dom) :
    domainDailyTotal (recordTime env dom t d) dom' = domainDailyTotal d dom' := by
  unfold domainDailyTotal recordTime
  exact sumByA_updA_pres _ d.dailyStats env.todayKey [] _ rfl
    (fun m => projA_updA_ne _ m dom dom' defaultDayEntry _ h)

theorem dayTotal_recordTime_self (env : Env) (dom : String) (t : Int) (d : Data) :
    dayTotal (recordTime env dom t d) env.todayKey = dayTotal d env.todayKey + t := by
  unfold dayTotal recordTime
  rw [getAD_updA_self]
  exact sumByA_updA_incr _ _ dom defaultDayEntry _ t rfl (fun v => rfl)

theorem dayTotal_recordTime_ne (env : Env) (dom : String) (t : Int) (d : Data) (k : String)
    (h : k ≠ env.todayKey) : dayTotal (recordTime env dom t d) k = dayTotal d k := by
  unfold dayTotal recordTime
  rw [getAD_updA_ne _ _ _ _ _ _ h]

theorem hourTotalOfDay_recordTime_self (env : Env) (dom : String) (t : Int) (d : Data) :
    hourTotalOfDay (recordTime env dom t d) env.todayKey
      = hourTotalOfDay d env.todayKey + t := by
  unfold hourTotalOfDay recordTime
  rw [getAD_updA_self]
  exact sumByA_updA_incr _ _ env.hour 0 _ t rfl (fun v => rfl)

theorem hourTotalOfDay_recordTime_ne (env : Env) (dom : String) (t : Int) (d : Data) (k : String)
    (h : k ≠ env.todayKey) : hourTotalOfDay (recordTime env dom t d) k = hourTotalOfDay d k := by
  unfold hourTotalOfDay recordTime
  rw [getAD_updA_ne _ _ _ _ _ _ h]

/-! ## Effect of `recordVisitCore` on the time observables -/

theorem siteTotal_recordVisitCore (env : Env) (dom dom' : String) (d : Data) :
    siteTotal (recordVisitCore env dom d) dom' = siteTotal d dom' := by
  unfold siteTotal recordVisitCore
  by_cases h : dom' = dom
  · subst h
    exact projA_updA_pres _ d.sites dom' (defaultSite env dom') _ rfl (fun v => rfl)
  · exact projA_updA_ne _ d.sites dom dom' (defaultSite env dom) _ h

theorem domainDailyTotal_recordVisitCore (env : Env) (dom dom' : String) (d : Data) :
    domainDailyTotal (recordVisitCore env dom d) dom' = domainDailyTotal d dom' := by
  unfold domainDailyTotal recordVisitCore
  refine sumByA_updA_pres _ d.dailyStats env.todayKey [] _ rfl (fun m => ?hm)
  by_cases h : dom' = dom
  · subst h
    exact projA_updA_pres _ m dom' defaultDayEntry _ rfl (fun v => rfl)
  · exact projA_updA_ne _ m dom dom' defaultDayEntry _ h

theorem dayTotal_recordVisitCore (env : Env) (dom : String) (d : Data) (k : String) :
    dayTotal (recordVisitCore env dom d) k = dayTotal d k := by
  unfold dayTotal recordVisitCore
  by_cases h : k = env.todayKey
  · subst h
    rw [getAD_updA_self]
    exact sumByA_updA_pres _ _ dom defaultDayEntry _ rfl (fun v => rfl)
  · rw [getAD_updA_ne _ _ _ _ _ _ h]

theorem hourTotalOfDay_recordVisitCore (env : Env) (dom : String) (d : Data) (k : String) :
    hourTotalOfDay (recordVisitCore env dom d) k = hourTotalOfDay d k := rfl

/-! ## The cross-accumulator invariant is preserved by every write -/

theorem aggInv_initial (t0 : Int) : AggInvariant (initialData t0) :=
  ⟨fun _ => rfl, fun _ => rfl⟩

theorem aggInv_recordTime (env : Env) (dom : String) (t : Int) (d : Data)
    (h : AggInvariant d) : AggInvariant (recordTime env dom t d) := by
  obtain ⟨h1, h2⟩ := h
  constructor
  · intro dom'
    by_cases hdd : dom' = dom
    · subst hdd
      rw [siteTotal_recordTime_self, domainDailyTotal_recordTime_self, h1]
    · rw [siteTotal_recordTime_ne _ _ _ _ _ hdd, domainDailyTotal_recordTime_ne _ _ _ _ _ hdd,
        h1]
  · intro k
    by_cases hk : k = env.todayKey
    · subst hk
      rw [dayTotal_recordTime_self, hourTotalOfDay_recordTime_self, h2]
    · rw [dayTotal_recordTime_ne _ _ _ _ _ hk, hourTotalOfDay_recordTime_ne _ _ _ _ _ hk, h2]

theorem aggInv_recordVisit (env : Env) (dom : Option String) (d : Data)
    (h : AggInvariant d) : AggInvariant (recordVisit env dom d) := by
  unfold recordVisit
  by_cases hg : shouldTrackDomain dom = true
  · rw [if_pos hg]
    cases dom with
    | none => exact h
    | some domain =>
      obtain ⟨h1, h2⟩ := h
      constructor
      · intro dom'
        rw [siteTotal_recordVisitCore, domainDailyTotal_recordVisitCore, h1]
      · intro k
        rw [dayTotal_recordVisitCore, hourTotalOfDay_recordVisitCore, h2]
  · rw [if_neg hg]
    exact h

theorem aggInv_applyOp (d : Data) (op : WOp) (h : AggInvariant d) :
    AggInvariant (applyOp d op) := by
  cases op with
  | time env dom t => exact aggInv_recordTime env dom t d h
  | visit env dom => exact aggInv_recordVisit env dom d h
  | clear now => exact aggInv_initial now

theorem aggInv_runOps (d : Data) (ops : List WOp) (h : AggInvariant d) :
    AggInvariant (runOps d ops) := by
  induction ops generalizing d with
  | nil => exact h
  | cons op rest ih =>
    rw [runOps, List.foldl_cons]
    exact ih (applyOp d op) (aggInv_applyOp d op h)

/-- Reduces `handleHeartbeat` on the tracked branch: user present, a
nonempty URL whose domain passes the tracking gate, and a truthy previous
heartbeat timestamp. -/
theorem handleHeartbeat_tracked (env : Env) (tr : Tracking) (d : Data) (url : String) (t : Int)
    (hidle : tr.isIdle = false) (hurl : tr.activeTabUrl = some url) (hne : url ≠ "")
    (hdom : shouldTrackDomain (getDomain url) = true)
    (hlast : tr.lastHeartbeat = some t) (ht : t ≠ 0) :
    handleHeartbeat env tr d =
      ({ tr with lastHeartbeat := some env.now },
       if env.now - t ≤ MAX_VALID_GAP_MS ∧ 1000 ≤ env.now - t then
         match getDomain url with
         | some dom => recordTime env dom (env.now - t) d
         | none => d
       else d) := by
  unfold handleHeartbeat
  rw [hurl, hlast]
  simp [hidle, hne, hdom, ht]

/-! ## Claim theorems -/

/-- Claim C1: on a heartbeat tick where the user is present, the current
URL yields a trackable domain and a truthy previous sample timestamp
exists, the tick attributes exactly `gap = now - lastSampleTimestamp` to
that domain (in the all-time, daily and hourly accumulators, touching no
other domain's total) when `1000 ms ≤ gap ≤ 45000 ms`, attributes nothing
when `gap < 1000 ms`, attributes nothing when `gap > 45000 ms`, and in
all three cases advances `lastSampleTimestamp` to `now`. -/
theorem heartbeat_gap_attribution (env : Env) (tr : Tracking) (d : Data) (url : String)
    (t : Int)
    (hidle : tr.isIdle = false) (hurl : tr.activeTabUrl = some url)
    (hdom : shouldTrackDomain (getDomain url) = true)
    (hlast : tr.lastHeartbeat = some t) (ht : t ≠ 0) :
    (handleHeartbeat env tr d).1 = { tr with lastHeartbeat := some env.now } ∧
    (∀ dom, getDomain url = some dom →
      1000 ≤ env.now - t → env.now - t ≤ MAX_VALID_GAP_MS →
        siteTotal (handleHeartbeat env tr d).2 dom = siteTotal d dom + (env.now - t) ∧
        dayTime (handleHeartbeat env tr d).2 env.todayKey dom
          = dayTime d env.todayKey dom + (env.now - t) ∧
        hourTime (handleHeartbeat env tr d).2 env.todayKey env.hour
          = hourTime d env.todayKey env.hour + (env.now - t) ∧
        (∀ dom', dom' ≠ dom →
          siteTotal (handleHeartbeat env tr d).2 dom' = siteTotal d dom')) ∧
    (env.now - t < 1000 → (handleHeartbeat env tr d).2 = d) ∧
    (MAX_VALID_GAP_MS < env.now - t → (handleHeartbeat env tr d).2 = d) := by
  have hne : url ≠ "" := by
    intro h
    subst h
    exact absurd hdom (by decide)
  rw [handleHeartbeat_tracked env tr d url t hidle hurl hne hdom hlast ht]
  refine ⟨rfl, ?attr, ?small, ?large⟩
  · intro dom hdomEq hlow hhigh
    rw [hdomEq]
    rw [if_pos ⟨hhigh, hlow⟩]
    exact ⟨siteTotal_recordTime_self env dom (env.now - t) d,
      dayTime_recordTime_self env dom (env.now - t) d,
      hourTime_recordTime_self env dom (env.now - t) d,
      fun dom' h' => siteTotal_recordTime_ne env dom dom' (env.now - t) d h'⟩
  · intro hsmall
    rw [if_neg (by omega)]
  · intro hlarge
    rw [if_neg (by omega)]

/-- Witness for C1 at a concrete tracked tick with a 10-second gap. -/
theorem heartbeat_gap_attribution_witness :
    siteTotal (handleHeartbeat ⟨1010000, "2025-06-01", 9⟩
        ⟨some "https://www.example.com/page", some 1000000, false⟩ (initialData 0)).2
        "example.com"
      = siteTotal (initialData 0) "example.com" + ((1010000 : Int) - 1000000) :=
  ((heartbeat_gap_attribution ⟨1010000, "2025-06-01", 9⟩
      ⟨some "https://www.example.com/page", some 1000000, false⟩ (initialData 0)
      "https://www.example.com/page" 1000000 rfl rfl (by decide) rfl
      (by decide)).2.1 "example.com" (by decide) (by decide) (by decide)).1

/-- Claim C2: in every stored aggregate state reachable from the empty
initial record by the write operations (time commits, visit recordings,
bulk clear), each domain's all-time total equals the sum of that domain's
daily-bucket times over all stored dates, and for each date the sum of
daily-bucket times over all domains equals the sum of hourly-bucket times
over all hours of that date; each commit produces the whole updated
record in one storage write (`applyOp` yields a single new `Data` value). -/
theorem aggregate_invariant_reachable (t0 : Int) (ops : List WOp) :
    AggInvariant (runOps (initialData t0) ops) :=
  aggInv_runOps (initialData t0) ops (aggInv_initial t0)

/-- Claim C3: a heartbeat tick with the user absent, or no current URL
(null or empty), or an untrackable derived domain, leaves the aggregate
store unchanged and still advances the sample timestamp to now. -/
theorem heartbeat_skip_advances_clock (env : Env) (tr : Tracking) (d : Data)
    (h : tr.isIdle = true ∨ tr.activeTabUrl = none ∨ tr.activeTabUrl = some "" ∨
      (∃ url, tr.activeTabUrl = some url ∧ shouldTrackDomain (getDomain url) = false)) :
    handleHeartbeat env tr d = ({ tr with lastHeartbeat := some env.now }, d) := by
  unfold handleHeartbeat
  rcases h with hidle | hurl | hurl | ⟨url, hurl, hdom⟩
  · simp [hidle]
  · cases hidle : tr.isIdle <;> simp [hurl]
  · cases hidle : tr.isIdle <;> simp [hurl]
  · cases hidle : tr.isIdle
    · rw [hurl]
      by_cases hne : url = ""
      · simp [hne]
      · simp [hne, hdom]
    · simp

/-- Witness for C3: an idle tick on a concrete state. -/
theorem heartbeat_skip_advances_clock_witness :
    handleHeartbeat ⟨5000, "2025-06-01", 9⟩ ⟨some "https://a.com/", some 1000, true⟩
        (initialData 0)
      = (⟨some "https://a.com/", some 5000, true⟩, initialData 0) :=
  heartbeat_skip_advances_clock ⟨5000, "2025-06-01", 9⟩
    ⟨some "https://a.com/", some 1000, true⟩ (initialData 0) (Or.inl rfl)

/-- Claim C7: the popup's clear operation resets the aggregate record to
empty sites, daily buckets and hourly buckets, stamps `lastUpdated` with
the current time, and leaves the live tracking document untouched. -/
theorem clearData_resets_data_frames_tracking (now : Int) (st : Store) :
    (clearData now st).webtime_data.sites = [] ∧
    (clearData now st).webtime_data.dailyStats = [] ∧
    (clearData now st).webtime_data.hourlyStats = [] ∧
    (clearData now st).webtime_data.lastUpdated = now ∧
    (clearData now st).webtime_tracking = st.webtime_tracking :=
  ⟨rfl, rfl, rfl, rfl, rfl⟩

/-- Claim C8: when the durable write inside a time commit or a visit
recording fails, the stored aggregate record is exactly the pre-operation
record (the handler absorbs the error and returns normally — the run
functions are total), and when the write succeeds the whole updated
record lands at once: no third outcome exists. -/
theorem failed_write_preserves_data (env : Env) (dom : String) (odom : Option String)
    (t : Int) (d : Data) :
    recordTimeRun false env dom t d = d ∧
    recordVisitRun false env odom d = d ∧
    (∀ ok, recordTimeRun ok env dom t d = d ∨
      recordTimeRun ok env dom t d = recordTime env dom t d) := by
  refine ⟨rfl, ?visit, ?cases⟩
  · unfold recordVisitRun
    by_cases hg : shouldTrackDomain odom = true
    · rw [if_pos hg]
      cases odom <;> rfl
    · rw [if_neg hg]
  · intro ok
    cases ok
    · exact Or.inl rfl
    · exact Or.inr rfl

/-- Claim C9: with a fixed "now", applying the become-present transition
(`setIdleState false`, the embedding of `setPresence(true)`) twice yields
exactly the state of applying it once. -/
theorem setPresence_true_idempotent (tr : Tracking) (now : Int) :
    setIdleState false now (setIdleState false now tr) = setIdleState false now tr := rfl

/-- Claim C4 counterexample: `extractDomain` does not return none for
`http://localhost/` — the scheme is http, so the source returns the
hostname; the localhost rejection lives in `shouldTrackDomain` instead. -/
theorem getDomain_localhost_not_none : getDomain "http://localhost/" ≠ none := by decide

/-- Claim C4 amended: `extractDomain` returns none for `chrome://settings`
and `file:///x`, returns `"localhost"` for `http://localhost/` (which the
separate trackability gate then rejects), and returns `"example.com"` for
`https://www.example.com/page`. -/
theorem extractDomain_classification :
    getDomain "chrome://settings" = none ∧
    getDomain "file:///x" = none ∧
    getDomain "http://localhost/" = some "localhost" ∧
    shouldTrackDomain (getDomain "http://localhost/") = false ∧
    getDomain "https://www.example.com/page" = some "example.com" := by decide

/-- Claim C5 fails on the code: `hostname.replace('www.', '')` removes the
first occurrence of `"www."` anywhere in the host, so a `"www."` label that
is not leading is not preserved — for host `app.www.example.com` (which
does not start with `"www."`) the result differs from the host. -/
theorem getDomain_strips_inner_www :
    getDomain "https://app.www.example.com/" = some "app.example.com" ∧
    "app.example.com" ≠ "app.www.example.com" := by decide

/-- Claim C6 fails on the code: there is no write serialization, so in the
read-read-write-write interleaving of two visit recordings for the same
domain on the empty store the final stored visit count is 1 (one increment
lost), while the serialized composition yields 2. -/
theorem concurrent_visits_lose_update :
    siteVisits (interleavedVisits ⟨1000, "2025-06-01", 9⟩ (some "example.com")
        (initialData 0)) "example.com" = 1 ∧
    siteVisits (recordVisit ⟨1000, "2025-06-01", 9⟩ (some "example.com")
        (recordVisit ⟨1000, "2025-06-01", 9⟩ (some "example.com") (initialData 0)))
        "example.com" = 2 := by decide

/-- Claim C10 counterexample: at the empty string the sanitizer returns
the input itself (the empty string) although the empty string does not
parse as an https URL, so the claimed equivalence fails. -/
theorem sanitizeUrl_iff_fails_on_empty :
    ¬ (sanitizeUrl "" = "" ↔ isHttpsUrl "" = true) := by decide

theorem insertedFaviconSrc_eq (u : String) :
    insertedFaviconSrc u = if sanitizeUrl u = "" then none else some (sanitizeUrl u) := rfl

/-- Trichotomy of the sanitizer: either the input is a nonempty https URL
and passes through unchanged, or the result is empty and the input is not
an https URL. -/
theorem sanitizeUrl_spec (u : String) :
    (isHttpsUrl u = true ∧ u ≠ "" ∧ sanitizeUrl u = u) ∨
    (sanitizeUrl u = "" ∧ isHttpsUrl u = false) := by
  by_cases hu : u = ""
  · right
    subst hu
    exact ⟨rfl, rfl⟩
  · cases hp : parseURL u with
    | none =>
      right
      constructor
      · unfold sanitizeUrl
        rw [if_neg hu, hp]
      · unfold isHttpsUrl
        rw [hp]
    | some r =>
      by_cases hh : r.protocol = "https:"
      · left
        refine ⟨?https, hu, ?pass⟩
        · unfold isHttpsUrl
          rw [hp]
          simp [hh]
        · unfold sanitizeUrl
          rw [if_neg hu, hp]
          simp [hh]
      · right
        constructor
        · unfold sanitizeUrl
          rw [if_neg hu, hp]
          simp [hh]
        · unfold isHttpsUrl
          rw [hp]
          simp [hh]

/-- Claim C10 amended: for every nonempty string the sanitizer returns the
input itself exactly when the input parses as a URL with protocol
`https:`; every input that is not an https URL (in particular the empty
string and unparseable strings) yields the empty string; and whenever the
site list actually receives an image source, that source is the https
input itself. -/
theorem sanitizeUrl_https_only (u : String) :
    (u ≠ "" → (sanitizeUrl u = u ↔ isHttpsUrl u = true)) ∧
    (isHttpsUrl u = false → sanitizeUrl u = "") ∧
    (∀ src, insertedFaviconSrc u = some src → src = u ∧ isHttpsUrl src = true) := by
  rcases sanitizeUrl_spec u with ⟨hh, hu, hs⟩ | ⟨hs, hf⟩
  · refine ⟨fun _ => ⟨fun _ => hh, fun _ => hs⟩, fun hcontra => ?bad, fun src hsrc => ?src⟩
    · rw [hh] at hcontra
      exact Bool.noConfusion hcontra
    · rw [insertedFaviconSrc_eq, hs, if_neg hu] at hsrc
      have husrc : u = src := Option.some.inj hsrc
      subst husrc
      exact ⟨rfl, hh⟩
  · refine ⟨fun hu => ⟨fun h => ?mp, fun h => ?mpr⟩, fun _ => hs, fun src hsrc => ?src2⟩
    · exact absurd (hs.symm.trans h) (Ne.symm hu)
    · rw [h] at hf
      exact Bool.noConfusion hf
    · rw [insertedFaviconSrc_eq, hs, if_pos rfl] at hsrc
      exact Option.noConfusion hsrc

/-- Witness for the amended C10 at a concrete https URL. -/
theorem sanitizeUrl_https_only_witness :
    sanitizeUrl "https://a.com/x" = "https://a.com/x" :=
  ((sanitizeUrl_https_only "https://a.com/x").1 (by decide)).mpr (by decide)
